import Mathlib

/-!
Verification development for the Nachos demand-paging core in
`src/nachos-3.4/code/userprog/addrspace.cc`.

The shallow embedding below translates the source routines into Lean:
machine integers become `Int`/`Nat`, the physical memory and the swap
files become total byte functions, the fixed global array
`invPageTable[32]` becomes a length-32 `List`, the frame bitmap `memMap`
becomes a `List Bool` whose length is the configured frame-pool size, and
the semaphore `invPageTableSemaphore` becomes an integer counter (`P`
decrements, `V` increments).  Fallible paths that dereference a null
pointer in the source return `none`.
-/

namespace Nachos

/-- Modelled from the spec: the simulator page size (`PageSize`, defined in
`machine.h`, outside the provided source).  Nachos uses 128 bytes. -/
def PageSize : Nat := 128

/-- `divRoundUp(n, s)` from the Nachos utility header (outside the provided
source, used by the constructor and by `GenerateSWAP`): integer division
rounded upward. -/
def divRoundUp (n s : Nat) : Nat := n / s + (if n % s > 0 then 1 else 0)

/-- One `TranslationEntry` of a page table (`translate.h`): the source
fields `virtualPage`, `physicalPage`, `valid`, `use`, `dirty`, `readOnly`. -/
structure TranslationEntry where
  virtualPage : Int
  physicalPage : Int
  valid : Bool
  use : Bool
  dirty : Bool
  readOnly : Bool
deriving Repr, DecidableEq, Inhabited

/-- One entry of the global inverted page table `invPageTable[32]`:
fields `time`, `process`, `processThread` (a thread pointer, `none` = NULL,
threads identified by an integer id), `page`. -/
structure InvEntry where
  time : Int
  process : Int
  processThread : Option Int
  page : Int
deriving Repr, DecidableEq, Inhabited

/-- The zero entry written by the lazy initialisation in the constructor
(`time = 0, process = -1, page = -1, processThread = NULL`). -/
def initInvEntry : InvEntry := ⟨0, -1, none, -1⟩

/-- The inverted page table right after its lazy zero-initialisation:
32 cleared entries (the source array is hardcoded to 32 slots). -/
def initInvPageTable : List InvEntry := List.replicate 32 initInvEntry

/-- A swap file: its byte length as created, and its contents as a total
function on integer offsets (offsets outside the file read as 0). -/
structure SwapFile where
  len : Nat
  bytes : Int → Int

/-- Global system state threaded through the embedded routines. -/
structure SysState where
  /-- the global `invPageTable[32]` (kept at length 32 by construction) -/
  invPageTable : List InvEntry
  /-- negation of the static flag `invPageTableNotYetLoaded` -/
  invLoaded : Bool
  /-- the frame bitmap `memMap`; its length is the configured pool size -/
  memMap : List Bool
  /-- `machine->mainMemory` as a byte function -/
  mainMemory : Int → Int
  /-- the file system restricted to swap files, keyed by the integer `ID`
  that names the file `ID.swap` -/
  swapFiles : Int → SwapFile
  /-- each thread's `space->pageTable`, keyed by thread identity -/
  pageTables : Int → List TranslationEntry
  /-- identity of `currentThread` -/
  currentThread : Int
  /-- counter of `invPageTableSemaphore` (1 = free, 0 = held) -/
  sem : Int
  /-- the global `swapMode` flag -/
  swapMode : Int

/-- Write into a list at a possibly negative integer index.  A negative or
out-of-range index is undefined behaviour in the C source; here it leaves
the list unchanged. -/
def listSetInt {α : Type} (l : List α) (i : Int) (a : α) : List α :=
  if 0 ≤ i then l.set i.toNat a else l

/-- `memMap->Find()` (BitMap::Find): return the lowest clear bit and mark
it as a side effect, or -1 with the bitmap unchanged when none is clear. -/
def memMapFindAlloc (l : List Bool) : Int × List Bool :=
  match l.findIdx? (fun b => b = false) with
  | some i => ((i : Int), l.set i true)
  | none => (-1, l)

/-- `memMap->Clear(i)` (BitMap::Clear). -/
def memMapClear (l : List Bool) (i : Int) : List Bool := listSetInt l i false

/-- Overwrite `k` bytes of a byte function starting at `off` with `data`
(read from offset 0): the result of a `for` copy loop or a `WriteAt`. -/
def memWrite (m : Int → Int) (off : Int) (data : Int → Int) (k : Nat) :
    Int → Int :=
  fun n => if off ≤ n ∧ n < off + (k : Int) then data (n - off) else m n

/-- `OpenFile::WriteAt(data, k, off)` on a swap file. -/
def SwapFile.writeAt (f : SwapFile) (data : Int → Int) (k : Nat) (off : Int) :
    SwapFile :=
  { f with bytes := memWrite f.bytes off data k }

/-- Update the swap-file directory at one process id. -/
def updateSwap (fs : Int → SwapFile) (pid : Int) (f : SwapFile) :
    Int → SwapFile :=
  fun q => if q = pid then f else fs q

/-- Update the per-thread page-table directory at one thread id. -/
def updatePT (ts : Int → List TranslationEntry) (tid : Int)
    (t : List TranslationEntry) : Int → List TranslationEntry :=
  fun q => if q = tid then t else ts q

/-- The aged-victim scan of `FrameSearch` (case 1), processed up to index
`n`: the fold state is the pair `(O, ans)` of the running maximum and the
running answer, starting from `(0, -1)`; an entry is taken only when its
`time` is strictly greater than the running maximum. -/
def agedScanGo (ipt : List InvEntry) (n : Nat) : Int × Int :=
  (List.range n).foldl
    (fun p i =>
      if (ipt.getD i initInvEntry).time > p.1
      then ((ipt.getD i initInvEntry).time, (i : Int)) else p)
    (0, -1)

/-- `FrameSearch()`: victim selection over the 32-slot inverted page table.
`swapMode` 0 (abort) only prints; 1 runs the aged scan; 2 returns
`Random() % 32`, with the value of `Random()` passed in as `randVal`;
any other mode leaves `finalAns` at -1. -/
def FrameSearch (swapMode : Int) (ipt : List InvEntry) (randVal : Nat) : Int :=
  if swapMode = 0 then -1
  else if swapMode = 1 then (agedScanGo ipt 32).2
  else if swapMode = 2 then ((randVal % 32 : Nat) : Int)
  else -1

/-- The page index `pageFaultAddr / PageSize` computed at the top of
`PageFaultLoadPage` (C integer division truncates toward zero). -/
def faultPageIndex (pageFaultAddr : Int) : Int := pageFaultAddr.tdiv PageSize

/-- The `time++` loop over all 32 entries of `invPageTable` (the list is
kept at length 32, so the loop body visits every entry exactly once). -/
def tickAll (l : List InvEntry) : List InvEntry :=
  l.map fun e => { e with time := e.time + 1 }

/-- The frame acquired by `PageFaultLoadPage`: the value of the local
variable `frame` after the `memMap->Find()` call and the possible
`FrameSearch()` reassignment. -/
def acquiredFrame (st : SysState) (randVal : Nat) : Int :=
  let fa := memMapFindAlloc st.memMap
  if fa.1 = -1 then FrameSearch st.swapMode st.invPageTable randVal else fa.1

/-- The eviction block of `PageFaultLoadPage` (the body of
`if(-1 != frame)` after `FrameSearch`): copy the victim frame's bytes out
of physical memory, `WriteAt` them into the victim owner's swap file at
the victim's virtual-page offset, and invalidate the owner's Page Table
Entry through `invPageTable[frame].processThread->space->pageTable`.
Returns `none` when the source would dereference a NULL `processThread`. -/
def evictFrame (st : SysState) (frame : Int) : Option SysState :=
  let victim := st.invPageTable.getD frame.toNat initInvEntry
  let wfile := (st.swapFiles victim.process).writeAt
    (fun i => st.mainMemory (frame * PageSize + i)) PageSize
    (victim.page * PageSize)
  match victim.processThread with
  | none => none
  | some vt =>
    some { st with
           swapFiles := updateSwap st.swapFiles victim.process wfile,
           pageTables := updatePT st.pageTables vt
             (listSetInt (st.pageTables vt) victim.page
               { (st.pageTables vt).getD victim.page.toNat default with
                 valid := false }) }

/-- The success suffix of `PageFaultLoadPage` (from the `ReadAt` on the
faulting process's swap file to `return 0`): refill the acquired frame
from swap at `page * PageSize`, install the Page Table Entry
(`valid = TRUE, virtualPage = page, physicalPage = frame`), increment
every registry entry's `time`, claim the frame's registry slot for the
faulting process, and release the semaphore. -/
def installPage (st1 : SysState) (page frame theThreadID : Int) : SysState :=
  let pageOffset : Int := page * PageSize
  let frameOffset : Int := frame * PageSize
  let readData : Int → Int :=
    fun i => (st1.swapFiles theThreadID).bytes (pageOffset + i)
  let mem2 := memWrite st1.mainMemory frameOffset readData PageSize
  let myTable := st1.pageTables st1.currentThread
  let myEntry := myTable.getD page.toNat default
  let myTable2 := listSetInt myTable page
    { myEntry with valid := true, virtualPage := page, physicalPage := frame }
  let ipt2 := listSetInt (tickAll st1.invPageTable) frame
    ⟨0, theThreadID, some st1.currentThread, page⟩
  { st1 with
    mainMemory := mem2,
    pageTables := updatePT st1.pageTables st1.currentThread myTable2,
    invPageTable := ipt2,
    sem := st1.sem + 1 }

/-- `AddrSpace::PageFaultLoadPage(pageFaultAddr, theThreadID)`.
Returns `some (code, st')` for a completed run (`code` 0 = success,
1 = no frame obtainable) and `none` when the source would dereference a
NULL `processThread` on the eviction path.  `this` is the address space of
`currentThread`, as at the only call site.  The failure path of the source
returns 1 without `invPageTableSemaphore.V()`, which the model reproduces:
`sem` stays decremented there. -/
def PageFaultLoadPage (st0 : SysState) (pageFaultAddr theThreadID : Int)
    (randVal : Nat) : Option (Int × SysState) :=
  -- invPageTableSemaphore.P()
  let st := { st0 with sem := st0.sem - 1 }
  let page : Int := faultPageIndex pageFaultAddr
  -- int frame = memMap->Find();
  let fa := memMapFindAlloc st.memMap
  let st := { st with memMap := fa.2 }
  -- on a full pool, FrameSearch() picks the victim that becomes `frame`
  let frame : Int :=
    if fa.1 = -1 then FrameSearch st.swapMode st.invPageTable randVal else fa.1
  let evicted : Option SysState :=
    if fa.1 = -1 ∧ frame ≠ -1 then evictFrame st frame else some st
  match evicted with
  | none => none
  | some st1 =>
    if frame = -1 then
      -- if(-1 == frame) return 1;  (no V(): the semaphore stays held)
      some (1, st1)
    else
      some (0, installPage st1 page frame theThreadID)

/-- A NOFF segment descriptor (size, virtual address, file offset), with
the nonnegative values of a well-formed header. -/
structure NoffSeg where
  size : Nat
  virtualAddr : Nat
  inFileAddr : Nat
deriving Repr, DecidableEq

/-- The three segment descriptors of a NOFF header after the magic check
and possible byte swap. -/
structure NoffHeader where
  code : NoffSeg
  initData : NoffSeg
  uninitData : NoffSeg
deriving Repr, DecidableEq

/-- The size computation shared by the constructor and `GenerateSWAP`:
`numPages = divRoundUp(code + initData + uninitData + stack, PageSize)`.
The stack size (`UserStackSize`, defined outside the provided source) is
passed as a parameter. -/
def AddrSpaceNumPages (h : NoffHeader) (stackSize : Nat) : Nat :=
  divRoundUp (h.code.size + h.initData.size + h.uninitData.size + stackSize)
    PageSize

/-- The page table built by the constructor loop: entry `i` gets
`virtualPage = i, valid = FALSE, use = FALSE, dirty = FALSE,
readOnly = FALSE`; `physicalPage` is never assigned, so it keeps an
indeterminate value supplied here by `junkPhys`. -/
def AddrSpacePageTable (numPages : Nat) (junkPhys : Nat → Int) :
    List TranslationEntry :=
  (List.range numPages).map fun (i : Nat) =>
    { virtualPage := (i : Int), physicalPage := junkPhys i,
      valid := false, use := false, dirty := false, readOnly := false }

/-- `AddrSpace::AddrSpace(executable)` after the header read and magic
check: the lazy zero-initialisation of `invPageTable` (guarded by the
static flag, under P/V which net to no semaphore change), then the size
computation and the page-table allocation.  Returns the new
`(numPages, pageTable)` pair and the state; `machine->mainMemory` is not
touched. -/
def AddrSpaceConstruct (st : SysState) (h : NoffHeader) (stackSize : Nat)
    (junkPhys : Nat → Int) : (Nat × List TranslationEntry) × SysState :=
  let st := if st.invLoaded then st
            else { st with invPageTable := initInvPageTable, invLoaded := true }
  let n := AddrSpaceNumPages h stackSize
  ((n, AddrSpacePageTable n junkPhys), st)

/-- The state mutated by the destructor loop: the page table being torn
down, the inverted page table, and the frame bitmap. -/
structure TeardownState where
  pt : List TranslationEntry
  ipt : List InvEntry
  memMap : List Bool

/-- One iteration of the destructor loop at index `i`: when entry `i` is
valid, clear its frame in `memMap` and zero its `invPageTable` slot; then
set `valid = 0, dirty = 0` on the entry. -/
def teardownStep (s : TeardownState) (i : Nat) : TeardownState :=
  let e := s.pt.getD i default
  let s1 :=
    if e.valid then
      { s with memMap := memMapClear s.memMap e.physicalPage,
               ipt := listSetInt s.ipt e.physicalPage initInvEntry }
    else s
  { s1 with pt := s1.pt.set i { e with valid := false, dirty := false } }

/-- `AddrSpace::~AddrSpace()` for a non-NULL page table: the loop over all
`numPages` entries (the final `delete` of the table is the end of the
object's life; the loop result is returned so its effect is observable). -/
def AddrSpaceDestroy (numPages : Nat) (pt : List TranslationEntry)
    (ipt : List InvEntry) (mm : List Bool) : TeardownState :=
  (List.range numPages).foldl teardownStep ⟨pt, ipt, mm⟩

/-- The final content of the `swapData` buffer in `GenerateSWAP` at offset
`j`: zeroed by `bzero`, then the code segment bytes are copied to
`[code.virtualAddr, code.virtualAddr + code.size)`, then the initialized
data segment bytes to its range (so on overlap the data segment, written
last, wins).  `exec off` is the executable file byte at offset `off`. -/
def swapImageByte (h : NoffHeader) (exec : Nat → Int) (j : Nat) : Int :=
  if 0 < h.initData.size ∧ h.initData.virtualAddr ≤ j ∧
      j < h.initData.virtualAddr + h.initData.size then
    exec (h.initData.inFileAddr + (j - h.initData.virtualAddr))
  else if 0 < h.code.size ∧ h.code.virtualAddr ≤ j ∧
      j < h.code.virtualAddr + h.code.size then
    exec (h.code.inFileAddr + (j - h.code.virtualAddr))
  else 0

/-- `AddrSpace::GenerateSWAP(executable, ID)`: the file `ID.swap` created
with exact length `numPages * PageSize` and then written in one
`Write(swapData, size)` call from offset 0. -/
def GenerateSWAP (h : NoffHeader) (stackSize : Nat) (exec : Nat → Int) :
    SwapFile :=
  let size := AddrSpaceNumPages h stackSize * PageSize
  { len := size,
    bytes := fun j =>
      if 0 ≤ j ∧ j < (size : Int) then swapImageByte h exec j.toNat else 0 }

/-! ### Helper lemmas about the embedded primitives -/

theorem listSetInt_length {α : Type} (l : List α) (i : Int) (a : α) :
    (listSetInt l i a).length = l.length := by
  unfold listSetInt
  split <;> simp

theorem listSetInt_getD_self {α : Type} (l : List α) (i : Int) (a d : α)
    (h0 : 0 ≤ i) (h : i.toNat < l.length) :
    (listSetInt l i a).getD i.toNat d = a := by
  simp [listSetInt, h0, List.getD_eq_getElem?_getD, List.getElem?_set_self h]

theorem listSetInt_getD_ne {α : Type} (l : List α) (i : Int) (a d : α)
    (q : Nat) (hq : (q : Int) ≠ i) :
    (listSetInt l i a).getD q d = l.getD q d := by
  unfold listSetInt
  split
  · have hne : i.toNat ≠ q := by omega
    simp [List.getD_eq_getElem?_getD, List.getElem?_set_ne hne]
  · rfl

theorem tickAll_length (l : List InvEntry) : (tickAll l).length = l.length := by
  simp [tickAll]

theorem tickAll_getD (l : List InvEntry) (q : Nat) (h : q < l.length) :
    (tickAll l).getD q initInvEntry =
      { l.getD q initInvEntry with time := (l.getD q initInvEntry).time + 1 } := by
  simp [tickAll, List.getD_eq_getElem?_getD, List.getElem?_eq_getElem h]

theorem memWrite_get_in (m : Int → Int) (off : Int) (data : Int → Int)
    (k : Nat) (i : Int) (h0 : 0 ≤ i) (hk : i < (k : Int)) :
    memWrite m off data k (off + i) = data i := by
  have h1 : off ≤ off + i := by omega
  have h2 : off + i < off + (k : Int) := by omega
  simp only [memWrite]
  rw [if_pos ⟨h1, h2⟩, add_sub_cancel_left]

theorem memWrite_get_out (m : Int → Int) (off : Int) (data : Int → Int)
    (k : Nat) (n : Int) (h : n < off ∨ off + (k : Int) ≤ n) :
    memWrite m off data k n = m n := by
  simp only [memWrite]
  rw [if_neg]
  omega

theorem memMapFindAlloc_fst_neg (l : List Bool)
    (h : (memMapFindAlloc l).1 = -1) : memMapFindAlloc l = (-1, l) := by
  unfold memMapFindAlloc at h ⊢
  cases hf : l.findIdx? (fun b => b = false) with
  | none => rfl
  | some i =>
    rw [hf] at h
    simp at h

theorem memMapFindAlloc_some (l : List Bool) (i : Nat)
    (h : l.findIdx? (fun b => b = false) = some i) :
    memMapFindAlloc l = ((i : Int), l.set i true) ∧ i < l.length := by
  refine ⟨by unfold memMapFindAlloc; rw [h], ?_⟩
  rcases List.findIdx?_eq_some_iff_getElem.mp h with ⟨hlt, _⟩
  exact hlt

theorem agedScanGo_succ (ipt : List InvEntry) (n : Nat) :
    agedScanGo ipt (n + 1) =
      (if (ipt.getD n initInvEntry).time > (agedScanGo ipt n).1
       then ((ipt.getD n initInvEntry).time, (n : Int))
       else agedScanGo ipt n) := by
  unfold agedScanGo
  rw [List.range_succ, List.foldl_append]
  simp

theorem agedScanGo_spec (ipt : List InvEntry) (n : Nat) :
    (agedScanGo ipt n = (0, -1) ∧
      ∀ i, i < n → (ipt.getD i initInvEntry).time ≤ 0) ∨
    (∃ j, j < n ∧
      agedScanGo ipt n = ((ipt.getD j initInvEntry).time, (j : Int)) ∧
      0 < (ipt.getD j initInvEntry).time ∧
      (∀ i, i < n →
        (ipt.getD i initInvEntry).time ≤ (ipt.getD j initInvEntry).time) ∧
      (∀ i, i < j →
        (ipt.getD i initInvEntry).time < (ipt.getD j initInvEntry).time)) := by
  induction n with
  | zero =>
    left
    exact ⟨rfl, fun i hi => absurd hi (Nat.not_lt_zero i)⟩
  | succ n ih =>
    have hstep := agedScanGo_succ ipt n
    rcases ih with ⟨heq, hle⟩ | ⟨j, hj, heq, hpos, hmax, htie⟩
    · rw [heq] at hstep
      by_cases hc : (ipt.getD n initInvEntry).time > 0
      · right
        refine ⟨n, Nat.lt_succ_self n, ?_, hc, ?_, ?_⟩
        · rw [hstep, if_pos hc]
        · intro i hi
          rcases Nat.lt_succ_iff_lt_or_eq.mp hi with hi2 | hi2
          · exact le_of_lt (lt_of_le_of_lt (hle i hi2) hc)
          · rw [hi2]
        · intro i hi
          exact lt_of_le_of_lt (hle i hi) hc
      · left
        refine ⟨by rw [hstep, if_neg hc], ?_⟩
        intro i hi
        rcases Nat.lt_succ_iff_lt_or_eq.mp hi with hi2 | hi2
        · exact hle i hi2
        · rw [hi2]; omega
    · rw [heq] at hstep
      by_cases hc :
          (ipt.getD n initInvEntry).time > (ipt.getD j initInvEntry).time
      · right
        refine ⟨n, Nat.lt_succ_self n, ?_, lt_trans hpos hc, ?_, ?_⟩
        · rw [hstep, if_pos hc]
        · intro i hi
          rcases Nat.lt_succ_iff_lt_or_eq.mp hi with hi2 | hi2
          · exact le_of_lt (lt_of_le_of_lt (hmax i hi2) hc)
          · rw [hi2]
        · intro i hi
          exact lt_of_le_of_lt (hmax i hi) hc
      · right
        refine ⟨j, lt_trans hj (Nat.lt_succ_self n), ?_, hpos, ?_, htie⟩
        · rw [hstep, if_neg hc]
        · intro i hi
          rcases Nat.lt_succ_iff_lt_or_eq.mp hi with hi2 | hi2
          · exact hmax i hi2
          · rw [hi2]; omega

theorem frameSearch_neg_or_range (m : Int) (ipt : List InvEntry) (rv : Nat) :
    FrameSearch m ipt rv = -1 ∨
      (0 ≤ FrameSearch m ipt rv ∧ FrameSearch m ipt rv < 32) := by
  unfold FrameSearch
  by_cases h0 : m = 0
  · left; rw [if_pos h0]
  rw [if_neg h0]
  by_cases h1 : m = 1
  · rw [if_pos h1]
    rcases agedScanGo_spec ipt 32 with ⟨heq, _⟩ | ⟨j, hj, heq, _, _, _⟩
    · left; rw [heq]
    · right
      rw [heq]
      refine ⟨Int.natCast_nonneg j, ?_⟩
      dsimp only
      exact_mod_cast hj
  rw [if_neg h1]
  by_cases h2 : m = 2
  · rw [if_pos h2]
    right
    have : rv % 32 < 32 := Nat.mod_lt rv (by norm_num)
    constructor
    · exact Int.natCast_nonneg _
    · exact_mod_cast this
  · left; rw [if_neg h2]

/-! ### Concrete states used by witnesses and counterexamples -/

/-- A swap file of zero bytes. -/
def zeroSwap : SwapFile := ⟨0, fun _ => 0⟩

/-- A concrete system state: full two-frame pool, abort-mode eviction. -/
def abortFullState : SysState :=
  { invPageTable := initInvPageTable, invLoaded := true,
    memMap := [true, true], mainMemory := fun _ => 0,
    swapFiles := fun _ => zeroSwap, pageTables := fun _ => [],
    currentThread := 0, sem := 1, swapMode := 0 }

/-! ### The claims -/

/-- C1: the claim states that `invPageTableSemaphore` is acquired at every
entry to `PageFaultLoadPage` and released before the resolver returns on
every return path, including the failure path.  The code violates this:
the failure path `if(-1 == frame) return 1;` returns without calling
`V()`.  Concretely, from a state whose semaphore counter is 1 (free), the
failed call returns code 1 with the counter left at 0 (held). -/
theorem C1_lock_left_held_on_failure :
    (PageFaultLoadPage abortFullState 0 7 0).map (fun p => (p.1, p.2.sem)) =
      some (1, 0) ∧ abortFullState.sem = 1 := by
  constructor
  · rfl
  · rfl

/-- C2: when the frame pool has no free frame and the eviction policy
yields no victim, `PageFaultLoadPage` returns failure (code 1) and commits
no partial state: the post-state differs from the pre-state only in the
(leaked) semaphore counter, so no page table, no inverted-page-table
entry, no bitmap bit, no swap file and no memory byte changes. -/
theorem C2_failure_commits_no_state (st : SysState) (a t : Int) (r : Nat)
    (hfull : (memMapFindAlloc st.memMap).1 = -1)
    (hnovictim : FrameSearch st.swapMode st.invPageTable r = -1) :
    PageFaultLoadPage st a t r = some (1, { st with sem := st.sem - 1 }) := by
  have hfa := memMapFindAlloc_fst_neg st.memMap hfull
  simp only [PageFaultLoadPage, hfa, hnovictim]
  simp

/-- C2 witness: the abort-mode full-pool state satisfies both hypotheses,
and the call concretely fails with all state components intact. -/
theorem C2_failure_commits_no_state_witness :
    (memMapFindAlloc abortFullState.memMap).1 = -1 ∧
    FrameSearch abortFullState.swapMode abortFullState.invPageTable 0 = -1 ∧
    PageFaultLoadPage abortFullState 3 7 0 =
      some (1, { abortFullState with sem := abortFullState.sem - 1 }) := by
  refine ⟨by rfl, by rfl, ?_⟩
  exact C2_failure_commits_no_state abortFullState 3 7 0 (by rfl) (by rfl)

/-- C8: Address Space construction computes
`numPages = ceil((code + initData + uninitData + stack) / PageSize)`,
allocates exactly that many Page Table Entries, each initialized with
`valid = false, use = false, dirty = false, readOnly = false,
virtualPage = i` (and an indeterminate `physicalPage`), and does not touch
physical memory. -/
theorem C8_construct (st : SysState) (h : NoffHeader) (stackSize : Nat)
    (junkPhys : Nat → Int) :
    AddrSpaceNumPages h stackSize =
        (h.code.size + h.initData.size + h.uninitData.size + stackSize
          + (PageSize - 1)) / PageSize ∧
    (AddrSpaceConstruct st h stackSize junkPhys).1 =
        (AddrSpaceNumPages h stackSize,
          AddrSpacePageTable (AddrSpaceNumPages h stackSize) junkPhys) ∧
    (AddrSpacePageTable (AddrSpaceNumPages h stackSize) junkPhys).length =
        AddrSpaceNumPages h stackSize ∧
    (∀ i, i < AddrSpaceNumPages h stackSize →
        (AddrSpacePageTable (AddrSpaceNumPages h stackSize) junkPhys).getD i
            default =
          { virtualPage := (i : Int), physicalPage := junkPhys i,
            valid := false, use := false, dirty := false,
            readOnly := false }) ∧
    (AddrSpaceConstruct st h stackSize junkPhys).2.mainMemory =
        st.mainMemory := by
  refine ⟨?_, ?_, ?_, ?_, ?_⟩
  · unfold AddrSpaceNumPages divRoundUp PageSize
    split <;> omega
  · by_cases hl : st.invLoaded <;> simp [AddrSpaceConstruct, hl]
  · unfold AddrSpacePageTable
    simp
  · intro i hi
    unfold AddrSpacePageTable
    rw [List.getD_eq_getElem?_getD, List.getElem?_map,
      List.getElem?_range hi]
    rfl
  · by_cases hl : st.invLoaded <;> simp [AddrSpaceConstruct, hl]

/-- A concrete NOFF header used by witnesses: a 4-byte code segment at
virtual address 0 (file offset 100) and a 4-byte initialized-data segment
at virtual address 8 (file offset 200). -/
def smallHeader : NoffHeader := ⟨⟨4, 0, 100⟩, ⟨4, 8, 200⟩, ⟨0, 0, 0⟩⟩

/-- An executable image whose byte at offset `off` is `off` itself. -/
def idExec : Nat → Int := fun off => (off : Int)

/-- C8 witness: with a 112-byte stack the small header needs one page, and
entry 0 of the constructed page table is as specified. -/
theorem C8_construct_witness :
    AddrSpaceNumPages smallHeader 112 = 1 ∧
    (AddrSpacePageTable (AddrSpaceNumPages smallHeader 112)
        (fun _ => 0)).getD 0 default =
      { virtualPage := 0, physicalPage := 0, valid := false, use := false,
        dirty := false, readOnly := false } := by
  have h := C8_construct abortFullState smallHeader 112 (fun _ => 0)
  refine ⟨by decide, ?_⟩
  have h4 := h.2.2.2.1 0 (by decide)
  simpa using h4

/-- C9: `GenerateSWAP` builds the swap file for process `ID` with exact
byte length `numPages * PageSize`; within that length, offsets inside the
code segment range hold the code bytes read from the executable, offsets
inside the initialized-data range hold the data bytes, and every other
offset is zero.  The disjointness hypothesis matches a well-formed image,
where the two segments occupy disjoint virtual ranges. -/
theorem C9_generate_swap (h : NoffHeader) (stackSize : Nat)
    (exec : Nat → Int)
    (hdisj : h.code.virtualAddr + h.code.size ≤ h.initData.virtualAddr ∨
      h.initData.virtualAddr + h.initData.size ≤ h.code.virtualAddr) :
    (GenerateSWAP h stackSize exec).len =
        AddrSpaceNumPages h stackSize * PageSize ∧
    (∀ j : Nat, j < AddrSpaceNumPages h stackSize * PageSize →
      ((h.code.virtualAddr ≤ j ∧ j < h.code.virtualAddr + h.code.size →
          (GenerateSWAP h stackSize exec).bytes (j : Int) =
            exec (h.code.inFileAddr + (j - h.code.virtualAddr))) ∧
       (h.initData.virtualAddr ≤ j ∧
            j < h.initData.virtualAddr + h.initData.size →
          (GenerateSWAP h stackSize exec).bytes (j : Int) =
            exec (h.initData.inFileAddr + (j - h.initData.virtualAddr))) ∧
       (¬(h.code.virtualAddr ≤ j ∧ j < h.code.virtualAddr + h.code.size) →
        ¬(h.initData.virtualAddr ≤ j ∧
            j < h.initData.virtualAddr + h.initData.size) →
          (GenerateSWAP h stackSize exec).bytes (j : Int) = 0))) := by
  constructor
  · rfl
  · intro j hj
    have hbytes : (GenerateSWAP h stackSize exec).bytes (j : Int) =
        swapImageByte h exec j := by
      unfold GenerateSWAP
      have hc1 : (0 : Int) ≤ (j : Int) := Int.natCast_nonneg j
      have hc2 : (j : Int) <
          ((AddrSpaceNumPages h stackSize * PageSize : Nat) : Int) := by
        exact_mod_cast hj
      simp only []
      rw [if_pos ⟨hc1, hc2⟩, Int.toNat_natCast]
    refine ⟨?_, ?_, ?_⟩
    · intro hcode
      rw [hbytes]
      unfold swapImageByte
      rw [if_neg (by omega), if_pos ⟨by omega, hcode.1, hcode.2⟩]
    · intro hdata
      rw [hbytes]
      unfold swapImageByte
      rw [if_pos ⟨by omega, hdata.1, hdata.2⟩]
    · intro hnc hnd
      rw [hbytes]
      unfold swapImageByte
      rw [if_neg (by omega), if_neg (by omega)]

/-- C9 witness: for the small header with a 112-byte stack, the swap file
has length 128; offset 1 holds executable byte 101 (code segment), offset
9 holds executable byte 201 (data segment), offset 20 is zero. -/
theorem C9_generate_swap_witness :
    (GenerateSWAP smallHeader 112 idExec).len = 128 ∧
    (GenerateSWAP smallHeader 112 idExec).bytes 1 = 101 ∧
    (GenerateSWAP smallHeader 112 idExec).bytes 9 = 201 ∧
    (GenerateSWAP smallHeader 112 idExec).bytes 20 = 0 := by
  have h := C9_generate_swap smallHeader 112 idExec (by decide)
  refine ⟨by rw [h.1]; rfl, ?_, ?_, ?_⟩
  · have h1 := (h.2 1 (by decide)).1 (by decide)
    simpa [idExec, smallHeader] using h1
  · have h9 := (h.2 9 (by decide)).2.1 (by decide)
    simpa [idExec, smallHeader] using h9
  · have h20 := (h.2 20 (by decide)).2.2 (by decide) (by decide)
    simpa using h20

/-- C10: `PageFaultLoadPage` computes `page = pageFaultAddr / PageSize`
and indexes the page table with it unchecked; the index is in range
exactly when `0 ≤ pageFaultAddr < numPages * PageSize`, and for any fault
address at or beyond `numPages * PageSize` the index is at least
`numPages`, hence out of range for the `numPages`-entry table. -/
theorem C10_page_index_unchecked (a : Int) (numPages : Nat) :
    (0 ≤ a →
      ((0 ≤ faultPageIndex a ∧ faultPageIndex a < (numPages : Int)) ↔
        a < (numPages : Int) * (PageSize : Int))) ∧
    ((numPages : Int) * (PageSize : Int) ≤ a →
      (numPages : Int) ≤ faultPageIndex a) := by
  have h128 : ((PageSize : Nat) : Int) = 128 := rfl
  have htd : 0 ≤ a → faultPageIndex a = a / 128 := by
    intro ha
    unfold faultPageIndex
    rw [Int.tdiv_eq_ediv ha (Int.natCast_nonneg _), h128]
  constructor
  · intro ha
    rw [htd ha, h128]
    omega
  · intro ha
    have ha0 : 0 ≤ a := le_trans (by positivity) ha
    rw [htd ha0]
    rw [h128] at ha
    omega

/-- C10 witness: with a two-page table, fault address 300 (at or beyond
2 * 128 = 256) yields page index at least 2, hence out of range. -/
theorem C10_page_index_unchecked_witness :
    ((2 : Nat) : Int) * (PageSize : Int) ≤ 300 ∧
    ((2 : Nat) : Int) ≤ faultPageIndex 300 :=
  ⟨by decide, (C10_page_index_unchecked 300 2).2 (by decide)⟩

/-- C3 counterexample: the claim says that in aged-victim mode a frame
index is returned for every registry state, including when every entry's
ageCounter is equal.  On the freshly initialized registry every ageCounter
equals zero, yet the scan (`time > O` with `O` starting at 0) never takes
an entry and `FrameSearch` returns -1. -/
theorem C3_aged_all_equal_returns_none :
    (∀ i, i < 32 →
      (initInvPageTable.getD i initInvEntry).time =
        (initInvPageTable.getD 0 initInvEntry).time) ∧
    FrameSearch 1 initInvPageTable 0 = -1 := by
  constructor
  · intro i hi
    have h1 : initInvPageTable.getD i initInvEntry = initInvEntry := by
      unfold initInvPageTable
      rw [List.getD_eq_getElem?_getD, List.getElem?_replicate_of_lt hi]
      rfl
    have h0 : initInvPageTable.getD 0 initInvEntry = initInvEntry := by
      unfold initInvPageTable
      rw [List.getD_eq_getElem?_getD,
        List.getElem?_replicate_of_lt (by norm_num)]
      rfl
    rw [h1, h0]
  · rcases agedScanGo_spec initInvPageTable 32 with ⟨heq, _⟩ |
      ⟨j, hj, _, hpos, _, _⟩
    · show (agedScanGo initInvPageTable 32).2 = -1
      rw [heq]
    · exfalso
      have hz : (initInvPageTable.getD j initInvEntry).time = 0 := by
        unfold initInvPageTable
        rw [List.getD_eq_getElem?_getD, List.getElem?_replicate_of_lt hj]
        rfl
      omega

/-- C3 amended: in aged-victim mode, when some registry entry has a
strictly positive ageCounter, `FrameSearch` returns the index of a
maximum-ageCounter entry, ties broken by lowest frame index; when every
ageCounter is at most zero (in particular when all are equal to zero), it
returns -1. -/
theorem C3_aged_max_or_none (ipt : List InvEntry) (rv : Nat) :
    ((∀ i, i < 32 → (ipt.getD i initInvEntry).time ≤ 0) →
      FrameSearch 1 ipt rv = -1) ∧
    ((∃ i, i < 32 ∧ 0 < (ipt.getD i initInvEntry).time) →
      ∃ j : Nat, j < 32 ∧ FrameSearch 1 ipt rv = (j : Int) ∧
        (∀ i, i < 32 →
          (ipt.getD i initInvEntry).time ≤ (ipt.getD j initInvEntry).time) ∧
        (∀ i, i < j →
          (ipt.getD i initInvEntry).time < (ipt.getD j initInvEntry).time)) := by
  have hfs : FrameSearch 1 ipt rv = (agedScanGo ipt 32).2 := rfl
  constructor
  · intro hall
    rcases agedScanGo_spec ipt 32 with ⟨heq, _⟩ | ⟨j, hj, _, hpos, _, _⟩
    · rw [hfs, heq]
    · exact absurd hpos (not_lt.mpr (hall j hj))
  · rintro ⟨i, hi, hipos⟩
    rcases agedScanGo_spec ipt 32 with ⟨_, hle⟩ | ⟨j, hj, heq, _, hmax, htie⟩
    · exact absurd hipos (not_lt.mpr (hle i hi))
    · exact ⟨j, hj, by rw [hfs, heq], hmax, htie⟩

/-- C3 witness: a registry whose slot 3 has ageCounter 5 (all others 0)
satisfies the positive-entry hypothesis, and the aged scan returns an
index attaining the maximum. -/
theorem C3_aged_max_or_none_witness :
    (3 < 32 ∧
      0 < ((initInvPageTable.set 3 ⟨5, 2, some 2, 1⟩).getD 3
          initInvEntry).time) ∧
    ∃ j : Nat, j < 32 ∧
      FrameSearch 1 (initInvPageTable.set 3 ⟨5, 2, some 2, 1⟩) 0 = (j : Int) ∧
      (∀ i, i < 32 →
        ((initInvPageTable.set 3 ⟨5, 2, some 2, 1⟩).getD i initInvEntry).time ≤
          ((initInvPageTable.set 3 ⟨5, 2, some 2, 1⟩).getD j
            initInvEntry).time) ∧
      (∀ i, i < j →
        ((initInvPageTable.set 3 ⟨5, 2, some 2, 1⟩).getD i initInvEntry).time <
          ((initInvPageTable.set 3 ⟨5, 2, some 2, 1⟩).getD j
            initInvEntry).time) :=
  ⟨⟨by decide, by decide⟩,
    (C3_aged_max_or_none (initInvPageTable.set 3 ⟨5, 2, some 2, 1⟩) 0).2
      ⟨3, by decide, by decide⟩⟩

/-- A concrete system state with a configured pool of 16 frames and
random-mode eviction. -/
def pool16State : SysState :=
  { invPageTable := initInvPageTable, invLoaded := true,
    memMap := List.replicate 16 false, mainMemory := fun _ => 0,
    swapFiles := fun _ => zeroSwap, pageTables := fun _ => [],
    currentThread := 0, sem := 1, swapMode := 2 }

/-- C4 counterexample: the claim says the registry capacity equals the
frame pool size and that eviction indices lie in the pool range for any
configured pool size.  With a configured pool of 16 frames the registry
still has its hardcoded 32 slots, and random mode (here with
`Random() = 52`, reduced modulo the hardcoded 32) returns frame 20,
outside the 16-frame pool. -/
theorem C4_registry_not_pool_sized :
    pool16State.memMap.length = 16 ∧
    pool16State.invPageTable.length = 32 ∧
    FrameSearch pool16State.swapMode pool16State.invPageTable 52 = 20 ∧
    ¬(20 < pool16State.memMap.length) := by
  refine ⟨rfl, rfl, rfl, by decide⟩

/-- C4 amended: the Frame Ownership Registry has the fixed hardcoded
capacity 32, independent of the configured pool size, and every index an
eviction policy produces lies in the interval from 0 inclusive to 32
exclusive — which coincides with the pool range only when the pool has
exactly 32 frames. -/
theorem C4_registry_capacity_32 (m : Int) (ipt : List InvEntry) (rv : Nat) :
    initInvPageTable.length = 32 ∧
    (FrameSearch m ipt rv = -1 ∨
      (0 ≤ FrameSearch m ipt rv ∧ FrameSearch m ipt rv < 32)) :=
  ⟨rfl, frameSearch_neg_or_range m ipt rv⟩

/-! ### Teardown lemmas for C7 -/

theorem getD_set_ne {α : Type} (l : List α) (n i : Nat) (a d : α)
    (h : n ≠ i) : (l.set n a).getD i d = l.getD i d := by
  rw [List.getD_eq_getElem?_getD, List.getElem?_set_ne h,
    ← List.getD_eq_getElem?_getD]

theorem getD_set_self_of_lt {α : Type} (l : List α) (n : Nat) (a d : α)
    (h : n < l.length) : (l.set n a).getD n d = a := by
  rw [List.getD_eq_getElem?_getD, List.getElem?_set_self h]
  rfl

theorem listSetInt_getD_cast_same {α : Type} (l : List α) (q : Nat) (a : α) :
    (listSetInt l (q : Int) a).getD q a = a := by
  by_cases hq : q < l.length
  · have h0 : (0 : Int) ≤ (q : Int) := Int.natCast_nonneg q
    have := listSetInt_getD_self l (q : Int) a a h0
      (by rwa [Int.toNat_natCast])
    rwa [Int.toNat_natCast] at this
  · rw [List.getD_eq_default]
    rw [listSetInt_length]
    omega

theorem teardownStep_pt (s : TeardownState) (i : Nat) :
    (teardownStep s i).pt =
      s.pt.set i
        { s.pt.getD i default with valid := false, dirty := false } := by
  simp only [teardownStep]
  split <;> rfl

theorem teardownStep_mm (s : TeardownState) (i : Nat) :
    (teardownStep s i).memMap =
      (if (s.pt.getD i default).valid
       then memMapClear s.memMap (s.pt.getD i default).physicalPage
       else s.memMap) := by
  simp only [teardownStep]
  split <;> rfl

theorem teardownStep_ipt (s : TeardownState) (i : Nat) :
    (teardownStep s i).ipt =
      (if (s.pt.getD i default).valid
       then listSetInt s.ipt (s.pt.getD i default).physicalPage initInvEntry
       else s.ipt) := by
  simp only [teardownStep]
  split <;> rfl

theorem AddrSpaceDestroy_succ (pt : List TranslationEntry)
    (ipt : List InvEntry) (mm : List Bool) (n : Nat) :
    AddrSpaceDestroy (n + 1) pt ipt mm =
      teardownStep (AddrSpaceDestroy n pt ipt mm) n := by
  unfold AddrSpaceDestroy
  rw [List.range_succ, List.foldl_append]
  simp

theorem AddrSpaceDestroy_spec (pt : List TranslationEntry)
    (ipt : List InvEntry) (mm : List Bool) (n : Nat) :
    ((AddrSpaceDestroy n pt ipt mm).pt.length = pt.length) ∧
    ((AddrSpaceDestroy n pt ipt mm).memMap.length = mm.length) ∧
    ((AddrSpaceDestroy n pt ipt mm).ipt.length = ipt.length) ∧
    (∀ i, n ≤ i →
      (AddrSpaceDestroy n pt ipt mm).pt.getD i default =
        pt.getD i default) ∧
    (∀ i, i < n →
      (AddrSpaceDestroy n pt ipt mm).pt.getD i default =
        { pt.getD i default with valid := false, dirty := false }) ∧
    (∀ q : Nat,
      ((∃ i, i < n ∧ (pt.getD i default).valid = true ∧
          (pt.getD i default).physicalPage = (q : Int)) →
        (AddrSpaceDestroy n pt ipt mm).memMap.getD q false = false) ∧
      ((¬ ∃ i, i < n ∧ (pt.getD i default).valid = true ∧
          (pt.getD i default).physicalPage = (q : Int)) →
        (AddrSpaceDestroy n pt ipt mm).memMap.getD q false =
          mm.getD q false)) ∧
    (∀ q : Nat,
      ((∃ i, i < n ∧ (pt.getD i default).valid = true ∧
          (pt.getD i default).physicalPage = (q : Int)) →
        (AddrSpaceDestroy n pt ipt mm).ipt.getD q initInvEntry =
          initInvEntry) ∧
      ((¬ ∃ i, i < n ∧ (pt.getD i default).valid = true ∧
          (pt.getD i default).physicalPage = (q : Int)) →
        (AddrSpaceDestroy n pt ipt mm).ipt.getD q initInvEntry =
          ipt.getD q initInvEntry)) := by
  induction n with
  | zero =>
    refine ⟨rfl, rfl, rfl, fun i _ => rfl,
      fun i hi => absurd hi (Nat.not_lt_zero i), fun q => ⟨?_, fun _ => rfl⟩,
      fun q => ⟨?_, fun _ => rfl⟩⟩
    · rintro ⟨i, hi, -, -⟩
      exact absurd hi (Nat.not_lt_zero i)
    · rintro ⟨i, hi, -, -⟩
      exact absurd hi (Nat.not_lt_zero i)
  | succ n ih =>
    obtain ⟨L1, L2, L3, H2, H3, H4, H5⟩ := ih
    have he : (AddrSpaceDestroy n pt ipt mm).pt.getD n default =
        pt.getD n default := H2 n (le_refl n)
    rw [AddrSpaceDestroy_succ]
    refine ⟨?_, ?_, ?_, ?_, ?_, ?_, ?_⟩
    · rw [teardownStep_pt]
      simp [L1]
    · rw [teardownStep_mm]
      split
      · unfold memMapClear
        rw [listSetInt_length, L2]
      · exact L2
    · rw [teardownStep_ipt]
      split
      · rw [listSetInt_length, L3]
      · exact L3
    · intro i hi
      rw [teardownStep_pt, getD_set_ne _ _ _ _ _ (by omega)]
      exact H2 i (by omega)
    · intro i hi
      rw [teardownStep_pt]
      rcases Nat.lt_succ_iff_lt_or_eq.mp hi with hi2 | hi2
      · rw [getD_set_ne _ _ _ _ _ (by omega)]
        exact H3 i hi2
      · subst hi2
        by_cases hn : i < (AddrSpaceDestroy i pt ipt mm).pt.length
        · rw [getD_set_self_of_lt _ _ _ _ hn, he]
        · have hge : pt.length ≤ i := by
            rw [L1] at hn
            omega
          rw [List.getD_eq_default]
          · rw [List.getD_eq_default _ _ hge]
            rfl
          · rw [List.length_set, L1]
            exact hge
    · intro q
      constructor
      · rintro ⟨i, hi, hval, hpp⟩
        rw [teardownStep_mm]
        rcases Nat.lt_succ_iff_lt_or_eq.mp hi with hi2 | hi2
        · have hres := (H4 q).1 ⟨i, hi2, hval, hpp⟩
          split
          · unfold memMapClear
            by_cases hq :
                ((q : Int) =
                  ((AddrSpaceDestroy n pt ipt mm).pt.getD n
                    default).physicalPage)
            · rw [← hq]
              exact listSetInt_getD_cast_same _ q false
            · rw [listSetInt_getD_ne _ _ _ _ q hq]
              exact hres
          · exact hres
        · subst hi2
          rw [if_pos (by rw [he]; exact hval)]
          unfold memMapClear
          rw [he, hpp]
          exact listSetInt_getD_cast_same _ q false
      · intro hno
        have hno_n : ¬ ∃ i, i < n ∧ (pt.getD i default).valid = true ∧
            (pt.getD i default).physicalPage = (q : Int) := by
          rintro ⟨i, hi, h2a, h3a⟩
          exact hno ⟨i, by omega, h2a, h3a⟩
        have hres := (H4 q).2 hno_n
        rw [teardownStep_mm]
        split
        · unfold memMapClear
          rename_i hvn
          rw [he] at hvn
          have hq : (q : Int) ≠ (pt.getD n default).physicalPage := by
            intro hq
            exact hno ⟨n, Nat.lt_succ_self n, hvn, hq.symm⟩
          rw [he, listSetInt_getD_ne _ _ _ _ q hq]
          exact hres
        · exact hres
    · intro q
      constructor
      · rintro ⟨i, hi, hval, hpp⟩
        rw [teardownStep_ipt]
        rcases Nat.lt_succ_iff_lt_or_eq.mp hi with hi2 | hi2
        · have hres := (H5 q).1 ⟨i, hi2, hval, hpp⟩
          split
          · by_cases hq :
                ((q : Int) =
                  ((AddrSpaceDestroy n pt ipt mm).pt.getD n
                    default).physicalPage)
            · rw [← hq]
              exact listSetInt_getD_cast_same _ q initInvEntry
            · rw [listSetInt_getD_ne _ _ _ _ q hq]
              exact hres
          · exact hres
        · subst hi2
          rw [if_pos (by rw [he]; exact hval)]
          rw [he, hpp]
          exact listSetInt_getD_cast_same _ q initInvEntry
      · intro hno
        have hno_n : ¬ ∃ i, i < n ∧ (pt.getD i default).valid = true ∧
            (pt.getD i default).physicalPage = (q : Int) := by
          rintro ⟨i, hi, h2a, h3a⟩
          exact hno ⟨i, by omega, h2a, h3a⟩
        have hres := (H5 q).2 hno_n
        rw [teardownStep_ipt]
        split
        · rename_i hvn
          rw [he] at hvn
          have hq : (q : Int) ≠ (pt.getD n default).physicalPage := by
            intro hq
            exact hno ⟨n, Nat.lt_succ_self n, hvn, hq.symm⟩
          rw [he, listSetInt_getD_ne _ _ _ _ q hq]
          exact hres
        · exact hres

/-- C7: running the destructor loop over all entries of a page table
leaves every entry with `valid = false` and `dirty = false`; a frame
bitmap bit is cleared exactly when some valid entry owned that frame, and
an inverted-page-table slot is reset to the cleared entry
(`time = 0, process = -1, page = -1`, thread reference cleared) exactly
when some valid entry owned that frame — every other bitmap bit and
registry slot is unchanged.  With the valid entries owning distinct
frames, this releases exactly the K owned frames and zeroes exactly the K
matching registry slots. -/
theorem C7_teardown (pt : List TranslationEntry) (ipt : List InvEntry)
    (mm : List Bool) :
    (∀ i, i < pt.length →
      ((AddrSpaceDestroy pt.length pt ipt mm).pt.getD i default).valid =
          false ∧
      ((AddrSpaceDestroy pt.length pt ipt mm).pt.getD i default).dirty =
          false) ∧
    (∀ q : Nat,
      ((∃ i, i < pt.length ∧ (pt.getD i default).valid = true ∧
          (pt.getD i default).physicalPage = (q : Int)) →
        (AddrSpaceDestroy pt.length pt ipt mm).memMap.getD q false =
          false) ∧
      ((¬ ∃ i, i < pt.length ∧ (pt.getD i default).valid = true ∧
          (pt.getD i default).physicalPage = (q : Int)) →
        (AddrSpaceDestroy pt.length pt ipt mm).memMap.getD q false =
          mm.getD q false)) ∧
    (∀ q : Nat,
      ((∃ i, i < pt.length ∧ (pt.getD i default).valid = true ∧
          (pt.getD i default).physicalPage = (q : Int)) →
        (AddrSpaceDestroy pt.length pt ipt mm).ipt.getD q initInvEntry =
          initInvEntry) ∧
      ((¬ ∃ i, i < pt.length ∧ (pt.getD i default).valid = true ∧
          (pt.getD i default).physicalPage = (q : Int)) →
        (AddrSpaceDestroy pt.length pt ipt mm).ipt.getD q initInvEntry =
          ipt.getD q initInvEntry)) := by
  obtain ⟨-, -, -, -, H3, H4, H5⟩ := AddrSpaceDestroy_spec pt ipt mm pt.length
  refine ⟨?_, H4, H5⟩
  intro i hi
  rw [H3 i hi]
  exact ⟨rfl, rfl⟩

/-- A two-entry page table for the teardown witness: entry 0 is valid in
frame 1 (and dirty), entry 1 is invalid. -/
def teardownPT : List TranslationEntry :=
  [⟨0, 1, true, false, true, false⟩, ⟨1, 0, false, false, false, false⟩]

/-- A registry for the teardown witness: slot 1 owned by process 9. -/
def teardownIPT : List InvEntry := initInvPageTable.set 1 ⟨4, 9, some 9, 0⟩

/-- A three-frame bitmap, all frames in use. -/
def teardownMM : List Bool := [true, true, true]

/-- C7 witness: tearing down the two-entry table clears entry 0, releases
frame 1, zeroes registry slot 1, and leaves frame 2 untouched. -/
theorem C7_teardown_witness :
    (∃ i, i < teardownPT.length ∧
      (teardownPT.getD i default).valid = true ∧
      (teardownPT.getD i default).physicalPage = ((1 : Nat) : Int)) ∧
    ((AddrSpaceDestroy teardownPT.length teardownPT teardownIPT
        teardownMM).pt.getD 0 default).valid = false ∧
    (AddrSpaceDestroy teardownPT.length teardownPT teardownIPT
        teardownMM).memMap.getD 1 false = false ∧
    (AddrSpaceDestroy teardownPT.length teardownPT teardownIPT
        teardownMM).ipt.getD 1 initInvEntry = initInvEntry ∧
    (AddrSpaceDestroy teardownPT.length teardownPT teardownIPT
        teardownMM).memMap.getD 2 false = teardownMM.getD 2 false := by
  have h := C7_teardown teardownPT teardownIPT teardownMM
  have hex : ∃ i, i < teardownPT.length ∧
      (teardownPT.getD i default).valid = true ∧
      (teardownPT.getD i default).physicalPage = ((1 : Nat) : Int) :=
    ⟨0, by decide, by decide, by decide⟩
  refine ⟨hex, (h.1 0 (by decide)).1, (h.2.1 1).1 hex, (h.2.2 1).1 hex, ?_⟩
  refine (h.2.1 2).2 ?_
  rintro ⟨i, hi, hv, hp⟩
  rcases i with _ | _ | i
  · exact absurd hp (by decide)
  · exact absurd hv (by decide)
  · have hlen : teardownPT.length = 2 := rfl
    omega

/-! ### Facts about the install and evict phases (for C5 and C6) -/

theorem installPage_swapFiles (st1 : SysState) (page frame tid : Int) :
    (installPage st1 page frame tid).swapFiles = st1.swapFiles := rfl

theorem installPage_mainMemory (st1 : SysState) (page frame tid : Int)
    (i : Nat) (hi : i < PageSize) :
    (installPage st1 page frame tid).mainMemory
        (frame * (PageSize : Int) + (i : Int)) =
      (st1.swapFiles tid).bytes (page * (PageSize : Int) + (i : Int)) := by
  simp only [installPage]
  rw [memWrite_get_in _ _ _ _ _ (Int.natCast_nonneg i) (by exact_mod_cast hi)]

theorem installPage_pageTable (st1 : SysState) (page frame tid : Int)
    (hp0 : 0 ≤ page)
    (hpt : page.toNat < (st1.pageTables st1.currentThread).length) :
    ((installPage st1 page frame tid).pageTables st1.currentThread).getD
        page.toNat default =
      { (st1.pageTables st1.currentThread).getD page.toNat default with
        valid := true, virtualPage := page, physicalPage := frame } := by
  simp only [installPage]
  unfold updatePT
  rw [if_pos rfl]
  exact listSetInt_getD_self _ _ _ _ hp0 hpt

theorem installPage_ipt_other (st1 : SysState) (page frame tid : Int)
    (i : Nat) (hi : i < st1.invPageTable.length) (hne : (i : Int) ≠ frame) :
    (installPage st1 page frame tid).invPageTable.getD i initInvEntry =
      { st1.invPageTable.getD i initInvEntry with
        time := (st1.invPageTable.getD i initInvEntry).time + 1 } := by
  simp only [installPage]
  rw [listSetInt_getD_ne _ _ _ _ i hne]
  exact tickAll_getD _ i hi

theorem installPage_ipt_self (st1 : SysState) (page frame tid : Int)
    (hf0 : 0 ≤ frame) (hf : frame.toNat < st1.invPageTable.length) :
    (installPage st1 page frame tid).invPageTable.getD frame.toNat
        initInvEntry =
      ⟨0, tid, some st1.currentThread, page⟩ := by
  simp only [installPage]
  refine listSetInt_getD_self _ _ _ _ hf0 ?_
  rw [tickAll_length]
  exact hf

theorem evictFrame_some (st : SysState) (frame vt : Int)
    (hvt : (st.invPageTable.getD frame.toNat initInvEntry).processThread =
      some vt) :
    evictFrame st frame =
      some { st with
             swapFiles := updateSwap st.swapFiles
               (st.invPageTable.getD frame.toNat initInvEntry).process
               ((st.swapFiles
                   (st.invPageTable.getD frame.toNat
                     initInvEntry).process).writeAt
                 (fun i => st.mainMemory (frame * PageSize + i)) PageSize
                 ((st.invPageTable.getD frame.toNat initInvEntry).page *
                   PageSize)),
             pageTables := updatePT st.pageTables vt
               (listSetInt (st.pageTables vt)
                 (st.invPageTable.getD frame.toNat initInvEntry).page
                 { (st.pageTables vt).getD
                     (st.invPageTable.getD frame.toNat
                       initInvEntry).page.toNat default with
                   valid := false }) } := by
  simp only [evictFrame]
  rw [hvt]

theorem evictFrame_none (st : SysState) (frame : Int)
    (hvt : (st.invPageTable.getD frame.toNat initInvEntry).processThread =
      none) :
    evictFrame st frame = none := by
  simp only [evictFrame]
  rw [hvt]

/-- Characterization of the free-frame path: when the bitmap has a clear
bit `k`, the call marks it, refills frame `k` and installs the page. -/
theorem PageFaultLoadPage_free_eq (st : SysState) (a t : Int) (r : Nat)
    (k : Nat) (hidx : st.memMap.findIdx? (fun b => b = false) = some k) :
    PageFaultLoadPage st a t r =
      some (0, installPage
        { st with sem := st.sem - 1, memMap := st.memMap.set k true }
        (faultPageIndex a) (k : Int) t) := by
  have hfa : memMapFindAlloc st.memMap = ((k : Int), st.memMap.set k true) := by
    unfold memMapFindAlloc
    rw [hidx]
  have hk : ¬((k : Int) = -1) := by omega
  simp [PageFaultLoadPage, hfa, hk]

/-- Characterization of the eviction path: with a full bitmap and a
victim frame `f` whose registry slot names a live owner thread, the call
writes the victim back, invalidates the owner's entry and installs the
faulting page into frame `f`. -/
theorem PageFaultLoadPage_evict_eq (st : SysState) (a t : Int) (r : Nat)
    (f : Int) (stE : SysState)
    (hidx : st.memMap.findIdx? (fun b => b = false) = none)
    (hfs : FrameSearch st.swapMode st.invPageTable r = f)
    (hf : f ≠ -1)
    (hev : evictFrame { st with sem := st.sem - 1 } f = some stE) :
    PageFaultLoadPage st a t r =
      some (0, installPage stE (faultPageIndex a) f t) := by
  have hfa : memMapFindAlloc st.memMap = (-1, st.memMap) := by
    unfold memMapFindAlloc
    rw [hidx]
  simp [PageFaultLoadPage, hfa, hfs, hf, hev]

/-- Characterization of the no-victim path: with a full bitmap and no
victim, the call returns 1 with only the semaphore decremented. -/
theorem PageFaultLoadPage_fail_eq (st : SysState) (a t : Int) (r : Nat)
    (hidx : st.memMap.findIdx? (fun b => b = false) = none)
    (hfs : FrameSearch st.swapMode st.invPageTable r = -1) :
    PageFaultLoadPage st a t r = some (1, { st with sem := st.sem - 1 }) := by
  have hfa : memMapFindAlloc st.memMap = (-1, st.memMap) := by
    unfold memMapFindAlloc
    rw [hidx]
  simp [PageFaultLoadPage, hfa, hfs]

/-- Characterization of the null-owner path: with a full bitmap and a
victim frame whose registry slot has a NULL thread reference, the source
dereferences NULL; the model returns `none`. -/
theorem PageFaultLoadPage_null_eq (st : SysState) (a t : Int) (r : Nat)
    (f : Int)
    (hidx : st.memMap.findIdx? (fun b => b = false) = none)
    (hfs : FrameSearch st.swapMode st.invPageTable r = f)
    (hf : f ≠ -1)
    (hev : evictFrame { st with sem := st.sem - 1 } f = none) :
    PageFaultLoadPage st a t r = none := by
  have hfa : memMapFindAlloc st.memMap = (-1, st.memMap) := by
    unfold memMapFindAlloc
    rw [hidx]
  simp [PageFaultLoadPage, hfa, hfs, hf, hev]

theorem evictFrame_parts (st : SysState) (f : Int) (stE : SysState)
    (hev : evictFrame st f = some stE) :
    stE.invPageTable = st.invPageTable ∧
    stE.currentThread = st.currentThread ∧
    stE.mainMemory = st.mainMemory ∧
    (∀ tid : Int, (stE.pageTables tid).length =
      (st.pageTables tid).length) := by
  simp only [evictFrame] at hev
  cases hvt : (st.invPageTable.getD f.toNat initInvEntry).processThread with
  | none =>
    rw [hvt] at hev
    exact absurd hev (by simp)
  | some vt =>
    rw [hvt] at hev
    have h2 := Option.some.inj hev
    subst h2
    refine ⟨rfl, rfl, rfl, ?_⟩
    intro tid
    dsimp only
    unfold updatePT
    split
    · rename_i hc
      rw [listSetInt_length, hc]
    · rfl

/-- C5: after a successful fault resolution for address `a` of process
`t` (page `faultPageIndex a`, frame `acquiredFrame st r`): the `PageSize`
bytes of that frame in physical memory equal the bytes of the process's
swap file at offset `page * PageSize` (the file as it stands after the
resolution — on the free-frame path it is untouched, on the eviction path
the only write precedes the refill read); the faulting Page Table Entry
has `valid = true` and `physicalPage = frame`; every other registry
entry's `time` was incremented by one; and the installed frame's registry
slot was reset to `time = 0` with owner process `t`, owner thread
`currentThread` and owner page `page`. -/
theorem C5_success (st : SysState) (a t : Int) (r : Nat) (st' : SysState)
    (ha : 0 ≤ a)
    (hlen : st.invPageTable.length = 32)
    (hmm : st.memMap.length ≤ 32)
    (hpt : (faultPageIndex a).toNat <
      (st.pageTables st.currentThread).length)
    (hsucc : PageFaultLoadPage st a t r = some (0, st')) :
    (∀ i : Nat, i < PageSize →
      st'.mainMemory (acquiredFrame st r * (PageSize : Int) + (i : Int)) =
        (st'.swapFiles t).bytes
          (faultPageIndex a * (PageSize : Int) + (i : Int))) ∧
    ((st'.pageTables st.currentThread).getD (faultPageIndex a).toNat
        default).valid = true ∧
    ((st'.pageTables st.currentThread).getD (faultPageIndex a).toNat
        default).physicalPage = acquiredFrame st r ∧
    (∀ i : Nat, i < 32 → (i : Int) ≠ acquiredFrame st r →
      (st'.invPageTable.getD i initInvEntry).time =
        (st.invPageTable.getD i initInvEntry).time + 1) ∧
    st'.invPageTable.getD (acquiredFrame st r).toNat initInvEntry =
      ⟨0, t, some st.currentThread, faultPageIndex a⟩ := by
  have hp0 : 0 ≤ faultPageIndex a :=
    Int.tdiv_nonneg ha (Int.natCast_nonneg _)
  cases hidx : st.memMap.findIdx? (fun b => b = false) with
  | some k =>
    obtain ⟨hfa, hklt⟩ := memMapFindAlloc_some st.memMap k hidx
    have hk : ¬((k : Int) = -1) := by omega
    rw [PageFaultLoadPage_free_eq st a t r k hidx] at hsucc
    have h2 := Option.some.inj hsucc
    injection h2 with h21 h22
    subst h22
    have hacq : acquiredFrame st r = (k : Int) := by
      simp [acquiredFrame, hfa, hk]
    have hk32 : (k : Int).toNat < 32 := by omega
    refine ⟨?_, ?_, ?_, ?_, ?_⟩
    · intro i hi
      rw [hacq, installPage_swapFiles]
      exact installPage_mainMemory _ _ _ _ i hi
    · have hconc := installPage_pageTable
        { st with sem := st.sem - 1, memMap := st.memMap.set k true }
        (faultPageIndex a) (k : Int) t hp0 (by exact hpt)
      have hconc2 : ((installPage
          { st with sem := st.sem - 1, memMap := st.memMap.set k true }
          (faultPageIndex a) (k : Int) t).pageTables
            st.currentThread).getD (faultPageIndex a).toNat default =
          { (st.pageTables st.currentThread).getD (faultPageIndex a).toNat
              default with
            valid := true, virtualPage := faultPageIndex a,
            physicalPage := (k : Int) } := hconc
      rw [hconc2]
    · have hconc := installPage_pageTable
        { st with sem := st.sem - 1, memMap := st.memMap.set k true }
        (faultPageIndex a) (k : Int) t hp0 (by exact hpt)
      have hconc2 : ((installPage
          { st with sem := st.sem - 1, memMap := st.memMap.set k true }
          (faultPageIndex a) (k : Int) t).pageTables
            st.currentThread).getD (faultPageIndex a).toNat default =
          { (st.pageTables st.currentThread).getD (faultPageIndex a).toNat
              default with
            valid := true, virtualPage := faultPageIndex a,
            physicalPage := (k : Int) } := hconc
      rw [hconc2, hacq]
    · intro i hi hne
      rw [hacq] at hne
      have h4 := installPage_ipt_other
        { st with sem := st.sem - 1, memMap := st.memMap.set k true }
        (faultPageIndex a) (k : Int) t i
        (by show i < st.invPageTable.length; rw [hlen]; exact hi) hne
      rw [h4]
    · rw [hacq]
      have h5 := installPage_ipt_self
        { st with sem := st.sem - 1, memMap := st.memMap.set k true }
        (faultPageIndex a) (k : Int) t (Int.natCast_nonneg k)
        (by show (k : Int).toNat < st.invPageTable.length
            rw [hlen]; exact hk32)
      exact h5
  | none =>
    have hfa : memMapFindAlloc st.memMap = (-1, st.memMap) := by
      unfold memMapFindAlloc
      rw [hidx]
    by_cases hfneg : FrameSearch st.swapMode st.invPageTable r = -1
    · rw [PageFaultLoadPage_fail_eq st a t r hidx hfneg] at hsucc
      have h2 := Option.some.inj hsucc
      injection h2 with h21 h22
      exact absurd h21 (by norm_num)
    · cases hvt : (st.invPageTable.getD
          (FrameSearch st.swapMode st.invPageTable r).toNat
            initInvEntry).processThread with
      | none =>
        rw [PageFaultLoadPage_null_eq st a t r _ hidx rfl hfneg
          (evictFrame_none _ _ (by exact hvt))] at hsucc
        exact absurd hsucc (by simp)
      | some vt =>
        obtain ⟨stE, hev⟩ : ∃ stE,
            evictFrame { st with sem := st.sem - 1 }
              (FrameSearch st.swapMode st.invPageTable r) = some stE :=
          ⟨_, evictFrame_some _ _ vt (by exact hvt)⟩
        rw [PageFaultLoadPage_evict_eq st a t r _ stE hidx rfl hfneg hev]
          at hsucc
        have h2 := Option.some.inj hsucc
        injection h2 with h21 h22
        subst h22
        obtain ⟨hiptE, hctE, -, hptE⟩ :=
          evictFrame_parts { st with sem := st.sem - 1 } _ stE hev
        have hiptE2 : stE.invPageTable = st.invPageTable := hiptE
        have hctE2 : stE.currentThread = st.currentThread := hctE
        have hptE2 : (stE.pageTables st.currentThread).length =
            (st.pageTables st.currentThread).length :=
          hptE st.currentThread
        have hacq : acquiredFrame st r =
            FrameSearch st.swapMode st.invPageTable r := by
          simp [acquiredFrame, hfa]
        rcases frameSearch_neg_or_range st.swapMode st.invPageTable r with
          hx | ⟨hge, hlt⟩
        · exact absurd hx hfneg
        have hf32 : (FrameSearch st.swapMode st.invPageTable r).toNat < 32 :=
          by omega
        refine ⟨?_, ?_, ?_, ?_, ?_⟩
        · intro i hi
          rw [hacq, installPage_swapFiles]
          exact installPage_mainMemory _ _ _ _ i hi
        · have hconc := installPage_pageTable stE (faultPageIndex a)
            (FrameSearch st.swapMode st.invPageTable r) t hp0
            (by rw [hctE2, hptE2]; exact hpt)
          rw [hctE2] at hconc
          rw [hconc]
        · have hconc := installPage_pageTable stE (faultPageIndex a)
            (FrameSearch st.swapMode st.invPageTable r) t hp0
            (by rw [hctE2, hptE2]; exact hpt)
          rw [hctE2] at hconc
          rw [hconc, hacq]
        · intro i hi hne
          rw [hacq] at hne
          have h4 := installPage_ipt_other stE (faultPageIndex a)
            (FrameSearch st.swapMode st.invPageTable r) t i
            (by rw [hiptE2, hlen]; exact hi) hne
          rw [h4, hiptE2]
        · rw [hacq]
          have h5 := installPage_ipt_self stE (faultPageIndex a)
            (FrameSearch st.swapMode st.invPageTable r) t (by omega)
            (by rw [hiptE2, hlen]; exact hf32)
          rw [hctE2] at h5
          exact h5

/-- A concrete state for the success witness: a one-frame pool with the
frame free, a one-entry page table for every thread, constant swap
files. -/
def freeState : SysState :=
  { invPageTable := initInvPageTable, invLoaded := true,
    memMap := [false], mainMemory := fun _ => 0,
    swapFiles := fun _ => ⟨128, fun n => n + 7⟩,
    pageTables := fun _ => [⟨0, 0, false, false, false, false⟩],
    currentThread := 1, sem := 1, swapMode := 0 }

/-- The state after the witness fault resolution on `freeState`. -/
def freeStateAfter : SysState :=
  ((PageFaultLoadPage freeState 0 1 0).getD (0, freeState)).2

set_option maxRecDepth 8000 in
/-- C5 witness: on `freeState` the fault on address 0 of thread 1
succeeds; the installed entry is valid and the claimed registry slot
names thread 1 and page 0. -/
theorem C5_success_witness :
    PageFaultLoadPage freeState 0 1 0 = some (0, freeStateAfter) ∧
    ((freeStateAfter.pageTables freeState.currentThread).getD
        (faultPageIndex 0).toNat default).valid = true ∧
    freeStateAfter.invPageTable.getD (acquiredFrame freeState 0).toNat
        initInvEntry =
      ⟨0, 1, some freeState.currentThread, faultPageIndex 0⟩ := by
  have hs : PageFaultLoadPage freeState 0 1 0 = some (0, freeStateAfter) :=
    rfl
  have h := C5_success freeState 0 1 0 freeStateAfter (by decide)
    (by decide) (by decide) (by decide) hs
  exact ⟨hs, h.2.1, h.2.2.2.2⟩

/-- The registry slot of the victim frame chosen by `FrameSearch`
(`invPageTable[frame]` on the eviction path). -/
def victimEntry (st : SysState) (r : Nat) : InvEntry :=
  st.invPageTable.getD (FrameSearch st.swapMode st.invPageTable r).toNat
    initInvEntry

theorem installPage_pageTables_other (st1 : SysState)
    (page frame tid q : Int) (hq : q ≠ st1.currentThread) :
    (installPage st1 page frame tid).pageTables q = st1.pageTables q := by
  simp only [installPage]
  unfold updatePT
  rw [if_neg hq]

theorem installPage_pageTables_self (st1 : SysState) (page frame tid : Int) :
    (installPage st1 page frame tid).pageTables st1.currentThread =
      listSetInt (st1.pageTables st1.currentThread) page
        { (st1.pageTables st1.currentThread).getD page.toNat default with
          valid := true, virtualPage := page, physicalPage := frame } := by
  simp only [installPage]
  unfold updatePT
  rw [if_pos rfl]

theorem evictFrame_writeback (st : SysState) (f vt : Int) (stE : SysState)
    (hvt : (st.invPageTable.getD f.toNat initInvEntry).processThread =
      some vt)
    (hev : evictFrame st f = some stE)
    (hvp0 : 0 ≤ (st.invPageTable.getD f.toNat initInvEntry).page)
    (hvplen : (st.invPageTable.getD f.toNat initInvEntry).page.toNat <
      (st.pageTables vt).length) :
    (∀ i : Nat, i < PageSize →
      (stE.swapFiles
          (st.invPageTable.getD f.toNat initInvEntry).process).bytes
        ((st.invPageTable.getD f.toNat initInvEntry).page *
            (PageSize : Int) + (i : Int)) =
      st.mainMemory (f * (PageSize : Int) + (i : Int))) ∧
    ((stE.pageTables vt).getD
        (st.invPageTable.getD f.toNat initInvEntry).page.toNat
        default).valid = false := by
  simp only [evictFrame] at hev
  rw [hvt] at hev
  have h2 := Option.some.inj hev
  subst h2
  constructor
  · intro i hi
    dsimp only
    unfold updateSwap
    rw [if_pos rfl]
    unfold SwapFile.writeAt
    dsimp only
    rw [memWrite_get_in _ _ _ _ _ (Int.natCast_nonneg i)
      (by exact_mod_cast hi)]
  · dsimp only
    unfold updatePT
    rw [if_pos rfl]
    rw [listSetInt_getD_self _ _ _ _ hvp0 hvplen]

/-- C6: when the pool has no free frame and the eviction policy returns a
victim frame, the resolver writes the victim frame's current `PageSize`
bytes of physical memory to the victim owner's swap file at the victim's
virtual-page offset — unconditionally: no hypothesis anywhere mentions
any dirty flag — marks the victim owner's Page Table Entry invalid, and
reuses that frame for the faulting page (the faulting entry's
`physicalPage` becomes the victim frame).  The separation hypothesis only
rules out the degenerate state in which the victim record names the
faulting page of the faulting thread itself. -/
theorem C6_eviction (st : SysState) (a t : Int) (r : Nat) (vt : Int)
    (ha : 0 ≤ a)
    (hidx : st.memMap.findIdx? (fun b => b = false) = none)
    (hfneg : FrameSearch st.swapMode st.invPageTable r ≠ -1)
    (hvt : (victimEntry st r).processThread = some vt)
    (hvp0 : 0 ≤ (victimEntry st r).page)
    (hvplen : (victimEntry st r).page.toNat < (st.pageTables vt).length)
    (hpt : (faultPageIndex a).toNat <
      (st.pageTables st.currentThread).length)
    (hsep : vt ≠ st.currentThread ∨
      (victimEntry st r).page ≠ faultPageIndex a) :
    ∃ st', PageFaultLoadPage st a t r = some (0, st') ∧
      (∀ i : Nat, i < PageSize →
        (st'.swapFiles (victimEntry st r).process).bytes
            ((victimEntry st r).page * (PageSize : Int) + (i : Int)) =
          st.mainMemory
            (FrameSearch st.swapMode st.invPageTable r * (PageSize : Int) +
              (i : Int))) ∧
      ((st'.pageTables vt).getD (victimEntry st r).page.toNat
          default).valid = false ∧
      ((st'.pageTables st.currentThread).getD (faultPageIndex a).toNat
          default).physicalPage =
        FrameSearch st.swapMode st.invPageTable r := by
  have hp0 : 0 ≤ faultPageIndex a :=
    Int.tdiv_nonneg ha (Int.natCast_nonneg _)
  obtain ⟨stE, hev⟩ : ∃ s,
      evictFrame { st with sem := st.sem - 1 }
        (FrameSearch st.swapMode st.invPageTable r) = some s :=
    ⟨_, evictFrame_some _ _ vt (by exact hvt)⟩
  obtain ⟨hiptE, hctE, hmemE, hptlE⟩ :=
    evictFrame_parts { st with sem := st.sem - 1 } _ stE hev
  have hctE2 : stE.currentThread = st.currentThread := hctE
  have hptlE2 : (stE.pageTables st.currentThread).length =
      (st.pageTables st.currentThread).length := hptlE st.currentThread
  have hw := evictFrame_writeback { st with sem := st.sem - 1 }
    (FrameSearch st.swapMode st.invPageTable r) vt stE (by exact hvt) hev
    (by exact hvp0) (by exact hvplen)
  refine ⟨installPage stE (faultPageIndex a)
      (FrameSearch st.swapMode st.invPageTable r) t,
    PageFaultLoadPage_evict_eq st a t r _ stE hidx rfl hfneg hev,
    ?_, ?_, ?_⟩
  · intro i hi
    rw [installPage_swapFiles]
    exact hw.1 i hi
  · by_cases hc : vt = stE.currentThread
    · have hpgne : (victimEntry st r).page ≠ faultPageIndex a := by
        rcases hsep with hvtne | hpgne
        · exact absurd (hc.trans hctE2) hvtne
        · exact hpgne
      rw [hc, installPage_pageTables_self]
      rw [listSetInt_getD_ne _ _ _ _ _
        (by rw [Int.toNat_of_nonneg (by exact hvp0)]; exact hpgne)]
      rw [← hc]
      exact hw.2
    · rw [installPage_pageTables_other stE _ _ _ vt hc]
      exact hw.2
  · have hconc := installPage_pageTable stE (faultPageIndex a)
      (FrameSearch st.swapMode st.invPageTable r) t hp0
      (by rw [hctE2, hptlE2]; exact hpt)
    rw [hctE2] at hconc
    rw [hconc]

/-- The registry for the eviction witness: frame 0 owned by thread 2
(virtual page 0) with ageCounter 3; all other slots cleared. -/
def evictIPT : List InvEntry := initInvPageTable.set 0 ⟨3, 2, some 2, 0⟩

/-- A concrete state for the eviction witness: a one-frame pool, full;
aged-victim mode; thread 2 owns frame 0; thread 1 is faulting. -/
def evictWitnessState : SysState :=
  { invPageTable := evictIPT, invLoaded := true,
    memMap := [true], mainMemory := fun n => n,
    swapFiles := fun _ => ⟨128, fun _ => 9⟩,
    pageTables := fun tid =>
      if tid = 2 then [⟨0, 0, true, false, false, false⟩]
      else [⟨0, 0, false, false, false, false⟩],
    currentThread := 1, sem := 1, swapMode := 1 }

set_option maxRecDepth 8000 in
/-- C6 witness: on `evictWitnessState`, the aged policy picks frame 0
(owned by thread 2), and the fault of thread 1 on address 0 evicts it. -/
theorem C6_eviction_witness :
    FrameSearch evictWitnessState.swapMode evictWitnessState.invPageTable
        0 = 0 ∧
    ∃ st', PageFaultLoadPage evictWitnessState 0 1 0 = some (0, st') ∧
      (∀ i : Nat, i < PageSize →
        (st'.swapFiles (victimEntry evictWitnessState 0).process).bytes
            ((victimEntry evictWitnessState 0).page * (PageSize : Int) +
              (i : Int)) =
          evictWitnessState.mainMemory
            (FrameSearch evictWitnessState.swapMode
                evictWitnessState.invPageTable 0 * (PageSize : Int) +
              (i : Int))) ∧
      ((st'.pageTables 2).getD (victimEntry evictWitnessState 0).page.toNat
          default).valid = false ∧
      ((st'.pageTables evictWitnessState.currentThread).getD
          (faultPageIndex 0).toNat default).physicalPage =
        FrameSearch evictWitnessState.swapMode
          evictWitnessState.invPageTable 0 := by
  refine ⟨by decide, ?_⟩
  exact C6_eviction evictWitnessState 0 1 0 2 (by decide) (by decide)
    (by decide) (by decide) (by decide) (by decide) (by decide)
    (Or.inl (by decide))

end Nachos
